import Mathlib

/-!
# Verification of the sikarra event-pipeline core

Shallow embedding, in Lean 4, of the parts of the `sikarra` repository that
the specification's testable properties talk about:

* the exponential backoff sequencer (`src/crates/core/src/backoff.rs`);
* the exact price engine (`src/crates/adapters/src/uniswap_v4/models.rs`);
* the resilient websocket consumer loop (`src/crates/wsclient/src/consumer.rs`)
  and the non-blocking client handle (`src/crates/wsclient/src/client.rs`);
* the Coinbase protocol callback (`src/crates/adapters/src/coinbase/wsclient.rs`);
* the polling pool watcher (`src/crates/adapters/src/uniswap_v4/state.rs`).

Machine integers (`u8`, `u32`) are embedded as `Nat` with explicit reduction
modulo `2^8` / `2^32` at every operation that can overflow, matching Rust
release-profile (wrapping) semantics.  Fallible operations return `Option` or
`Except`.  The asynchronous select loops are embedded as recursive functions
over a finite script of select outcomes: the script records, in order, which
arm of the `tokio::select!` fired and what the environment (transport,
channel, timer) delivered there.
-/

namespace Sikarra

/-! ## Exponential backoff — `src/crates/core/src/backoff.rs`

The Rust struct stores `retries : u8`, `min_secs max_secs factor : u32`,
`counter : u8`, `value_secs : u32`.  We keep the source field and method
names.  Arithmetic that can overflow (`counter + 1` on `u8`,
`value_secs * factor` on `u32`) is reduced modulo the width. -/

structure ExponentialBackoff where
  retries : ℕ
  min_secs : ℕ
  max_secs : ℕ
  factor : ℕ
  counter : ℕ
  value_secs : ℕ
deriving DecidableEq, Repr

namespace ExponentialBackoff

/-- Rust `ExponentialBackoff::new(retries, min_secs, max_secs, factor)`:
`counter` starts at `0` and `value_secs` starts at `min_secs`. -/
def new (retries min_secs max_secs factor : ℕ) : ExponentialBackoff :=
  { retries := retries, min_secs := min_secs, max_secs := max_secs,
    factor := factor, counter := 0, value_secs := min_secs }

/-- Rust `ExponentialBackoff::default()` = `new(10, 1, 60, 2)`. -/
def default : ExponentialBackoff := new 10 1 60 2

/-- Rust `ExponentialBackoff::reset`: the source sets `self.counter = 0` and
`self.value_secs = 0` (it zeroes the value, it does not restore `min_secs`). -/
def reset (b : ExponentialBackoff) : ExponentialBackoff :=
  { b with counter := 0, value_secs := 0 }

/-- Rust `<ExponentialBackoff as Iterator>::next`.  Returns `none` ("exhausted")
when `retries > 0 && counter >= retries`; otherwise returns the current
`value_secs` and advances the state: `counter += 1` (u8, wraps mod `2^8`),
then `value_secs` becomes `min_secs` if the incremented counter is `0`
(reachable only through the u8 wrap), else
`min(max_secs, value_secs * factor)` with the multiplication performed in
u32 (mod `2^32`). -/
def next (b : ExponentialBackoff) : Option (ℕ × ExponentialBackoff) :=
  if b.retries > 0 ∧ b.counter ≥ b.retries then
    none
  else
    let value := b.value_secs
    let counter1 := (b.counter + 1) % 2^8
    let value1 :=
      if counter1 = 0 then b.min_secs
      else
        let next_value := b.value_secs * b.factor % 2^32
        if next_value > b.max_secs then b.max_secs else next_value
    some (value, { b with counter := counter1, value_secs := value1 })

/-- Rust `ExponentialBackoff::get_iteration_count`. -/
def get_iteration_count (b : ExponentialBackoff) : ℕ := b.counter

end ExponentialBackoff

/-- The state after one `next()` call (unchanged when `next()` is exhausted,
as in the Rust iterator). -/
def stepB (b : ExponentialBackoff) : ExponentialBackoff :=
  match b.next with
  | none => b
  | some (_, b1) => b1

/-- The value produced by the `(n+1)`-st call of `next()` on `b`
(`n = 0` is the first call); `none` when that call reports exhaustion. -/
def outB (b : ExponentialBackoff) : ℕ → Option ℕ
  | 0 => b.next.map Prod.fst
  | n + 1 => outB (stepB b) n

/-- The delay sequence the specification prescribes:
`delay_0 = min_delay`, `delay_n = min(max_delay, delay_(n-1) * factor)`. -/
def specDelay (minD maxD factor : ℕ) : ℕ → ℕ
  | 0 => minD
  | n + 1 => min maxD (specDelay minD maxD factor n * factor)

/-- The backoff state after `n` calls of `next()`. -/
def iterB (b : ExponentialBackoff) : ℕ → ExponentialBackoff
  | 0 => b
  | n + 1 => stepB (iterB b n)

/-! ## Exact price engine — `src/crates/adapters/src/uniswap_v4/models.rs`

The Rust code stores the price ratio as two `fastnum::I512` integers plus a
`fastnum::D512` decimal scale factor.  All operands reached by the claims
below are exactly representable (the numerator and denominator are at most
320-bit integers, the scale is a quotient of powers of ten), so the `I512`
values are embedded as `ℤ` and the `D512` values as `ℚ`; `D512` division and
multiplication on these operands are exact, and the only rounding the code
performs on them is the final `round(rounding_decimals)` inside `to_fixed`,
embedded below with the same default `HalfUp` rounding mode. -/

/-- Rust constant `Q192 = I512::from_bits(U512::from_digits([0,0,0,1,0,0,0,0]))`,
that is `2^(3·64) = 2^192` (the digits are little-endian 64-bit limbs). -/
def Q192 : ℤ := 2 ^ 192

/-- Rust struct `SpotPrice { numerator: I512, denominator: I512, scale: D512 }`. -/
structure SpotPrice where
  numerator : ℤ
  denominator : ℤ
  scale : ℚ
deriving DecidableEq, Repr

namespace SpotPrice

/-- Rust `SpotPrice::new_from_sqrt_ratio_x96`: squares the `U160` square-root
ratio into `ratio_x192`, builds the exact decimal scale
`10^token_0_decimals / 10^token_1_decimals`, and picks
`(numerator, denominator) = (ratio_x192, Q192)` when `invert` and
`(Q192, ratio_x192)` otherwise. -/
def new_from_sqrt_ratio_x96 (sqrt_ratio_x96 : ℕ) (token_0_decimals token_1_decimals : ℕ)
    (invert : Bool) : SpotPrice :=
  let ratio_x192 : ℤ := (sqrt_ratio_x96 : ℤ) ^ 2
  let scale_0 : ℤ := 10 ^ token_0_decimals
  let scale_1 : ℤ := 10 ^ token_1_decimals
  let scale : ℚ := (scale_0 : ℚ) / (scale_1 : ℚ)
  if invert then
    { numerator := ratio_x192, denominator := Q192, scale := scale }
  else
    { numerator := Q192, denominator := ratio_x192, scale := scale }

/-- Rust `SpotPrice::to_decimal`: the `D512` quotient
`numerator_decimal / denominator_decimal`. -/
def to_decimal (p : SpotPrice) : ℚ :=
  (p.numerator : ℚ) / (p.denominator : ℚ)

/-- Rust `SpotPrice::adjsusted_to_decimal` (sic): `to_decimal() * scale`. -/
def adjsusted_to_decimal (p : SpotPrice) : ℚ :=
  p.to_decimal * p.scale

end SpotPrice

/-- Round-half-up of a rational to an integer: ties go up.  This is fastnum's
`RoundingMode::HalfUp` applied at scale 0; on the non-negative values reached
by the claims below it agrees with half-away-from-zero. -/
def roundHalfUp (x : ℚ) : ℤ := ⌊x + 1 / 2⌋

/-- Decimal rendering of the integer `n` understood as a fixed-point value
with `dp` digits after the point (fastnum `Display` of a decimal of scale
`dp`, as produced by `round(dp)`). -/
def formatFixed (n : ℤ) (dp : ℕ) : String :=
  if dp = 0 then toString n
  else
    let m := n.natAbs
    let fracStr := toString (m % 10 ^ dp)
    let padded := String.mk (List.replicate (dp - fracStr.length) '0') ++ fracStr
    (if n < 0 then "-" else "") ++ toString (m / 10 ^ dp) ++ "." ++ padded

/-- Rust `SpotPrice::to_fixed(rounding_decimals, rounding_mode)` with the
default `rounding_mode = None`, i.e. `RoundingMode::HalfUp`:
`adjsusted_to_decimal().with_rounding_mode(HalfUp).round(rounding_decimals).to_string()`.
fastnum's `round(d)` rescales the decimal to exactly `d` fractional digits
(rounding half-up), so the printed string is the half-up rounding of
`value · 10^d` rendered with `d` digits after the point. -/
def SpotPrice.to_fixed (p : SpotPrice) (rounding_decimals : ℕ) : String :=
  formatFixed (roundHalfUp (p.adjsusted_to_decimal * (10 : ℚ) ^ rounding_decimals))
    rounding_decimals

/-! ## Pool polling — `src/crates/adapters/src/uniswap_v4/state.rs` and
`PoolSlotData` from `models.rs` -/

/-- The fields of the `getSlot0` call result used by `watch_pool`. -/
structure Slot0 where
  sqrtPriceX96 : ℕ
  tick : ℤ
  protocolFee : ℕ
  lpFee : ℕ
deriving DecidableEq, Repr

/-- Rust struct `PoolSlotData`. -/
structure PoolSlotData where
  sqrt_price_x96 : ℕ
  tick : ℤ
  protocol_fee : ℕ
  lp_fee : ℕ
  spot_price : SpotPrice
deriving DecidableEq, Repr

/-- Rust `PoolSlotData::new`: derives the spot price from the raw slot data. -/
def PoolSlotData.new (sqrt_price_x96 : ℕ) (tick : ℤ) (protocol_fee lp_fee : ℕ)
    (token_0_decimals token_1_decimals : ℕ) (invert : Bool) : PoolSlotData :=
  { sqrt_price_x96 := sqrt_price_x96, tick := tick, protocol_fee := protocol_fee,
    lp_fee := lp_fee,
    spot_price := SpotPrice.new_from_sqrt_ratio_x96 sqrt_price_x96
      token_0_decimals token_1_decimals invert }

/-- Rust `UniswapV4StateViewManager::watch_pool`, built on `stream::unfold`.
Each scripted poll outcome is `some slot` (successful `getSlot0` call) or
`none` (RPC error).  On success the closure emits
`PoolSlotData::new(slot…, 18, 6, invert)` and recurses; on a failed poll the
closure returns `None`, and `stream::unfold` ends the stream at the first
`None` — nothing after it is ever polled or emitted. -/
def watchPoolEmissions (invert : Bool) : List (Option Slot0) → List PoolSlotData
  | [] => []
  | none :: _ => []
  | some slot :: rest =>
    PoolSlotData.new slot.sqrtPriceX96 slot.tick slot.protocolFee slot.lpFee 18 6 invert ::
      watchPoolEmissions invert rest

/-! ## Websocket client and consumer — `src/crates/wsclient/src/client.rs`,
`src/crates/wsclient/src/consumer.rs`,
`src/crates/adapters/src/coinbase/wsclient.rs` -/

/-- Application errors (`src/crates/core/src/error.rs`), message strings
abbreviated. -/
inductive AppError
  | notImplemented (msg : String)
  | webSocketError (msg : String)
deriving DecidableEq, Repr

/-- tungstenite websocket frames (payload details irrelevant to the claims
are kept abstract: text payloads are strings, control payloads byte lists,
the close frame's optional close reason is dropped). -/
inductive Message
  | text (payload : String)
  | binary (payload : List ℕ)
  | ping (payload : List ℕ)
  | pong (payload : List ℕ)
  | close
deriving DecidableEq, Repr

/-- The buffer of a bounded `tokio::sync::mpsc` channel whose receiving half
is still alive: `capacity` is fixed at `channel(channel_size)`. -/
structure OutboundQueue where
  capacity : ℕ
  buffer : List Message
deriving DecidableEq, Repr

/-- tokio `Sender::try_send`: fails immediately (returning the rejected
message, leaving the buffer untouched) when the buffer is full, otherwise
appends the message; it never suspends. -/
def OutboundQueue.try_send (q : OutboundQueue) (m : Message) :
    Except Message OutboundQueue :=
  if q.capacity ≤ q.buffer.length then .error m
  else .ok { q with buffer := q.buffer ++ [m] }

/-- Rust struct `WsConsumer` (minus the live callback and channel handles):
`consumer()` builds it with `ExponentialBackoff::default()` and the receiver
taken out of the client. -/
structure WsConsumer where
  ws_url : String
  heartbeat_millis : ℕ
  backoff : ExponentialBackoff
  receiver : ℕ
deriving DecidableEq, Repr

/-- Rust struct `WsClient`: the producer half of the bounded outbound
channel, plus `receiver: Option<Receiver>` (embedded as an optional handle
identifier) that `consumer()` takes out. -/
structure WsClient where
  ws_url : String
  queue : OutboundQueue
  receiver : Option ℕ
  heartbeat_millis : ℕ
deriving DecidableEq, Repr

namespace WsClient

/-- Rust `WsClient::write`: a single `try_send` on the producer half; `Err`
is mapped to `AppError::WebSocketError` and returned to the caller at once,
with no internal retry (the queue is unchanged on failure). -/
def write (c : WsClient) (message : Message) : Except AppError Unit × WsClient :=
  match c.queue.try_send message with
  | .ok q1 => (.ok (), { c with queue := q1 })
  | .error _ =>
    (.error (.webSocketError "failed to send message to websocket"), c)

/-- Rust `WsClient::close` = `write(Message::Close(None))`. -/
def close (c : WsClient) : Except AppError Unit × WsClient :=
  c.write .close

/-- Rust `WsClient::consumer`: errors if `receiver` is `None`, otherwise
`take`s the receiver out of the client (leaving `None` behind) and moves it
into the returned `WsConsumer` together with a default backoff. -/
def consumer (c : WsClient) : Except AppError WsConsumer × WsClient :=
  match c.receiver with
  | none =>
    (.error (.webSocketError "WebSocket client receiver is not initialized"), c)
  | some r =>
    (.ok { ws_url := c.ws_url, heartbeat_millis := c.heartbeat_millis,
           backoff := ExponentialBackoff.default, receiver := r },
     { c with receiver := none })

end WsClient

/-- The number of successful `consumer()` calls among `n` consecutive calls
on the same client (each call acting on the state the previous one left). -/
def consumerSuccessCount (c : WsClient) : ℕ → ℕ
  | 0 => 0
  | n + 1 =>
    match c.consumer with
    | (.ok _, c1) => 1 + consumerSuccessCount c1 n
    | (.error _, c1) => consumerSuccessCount c1 n

/-- The `WsCallback` capability (`src/crates/wsclient/src/callback.rs`),
embedded as state-threading functions over an implementation state `σ`.
Timestamps carry no information the claims use and are dropped. -/
structure CallbackM (σ : Type) where
  on_connect : σ → Except AppError σ
  on_message : σ → Message → Except AppError σ
  on_disconnect : σ → Except AppError σ
  on_heartbeat : σ → Except AppError σ

/-- Decidable equality for `Except`, needed to state and decide concrete
facts about fallible results. -/
instance exceptDecEq {α β : Type} [DecidableEq α] [DecidableEq β] :
    DecidableEq (Except α β) := fun x y =>
  match x, y with
  | .error a, .error b =>
    if h : a = b then isTrue (by rw [h])
    else isFalse (by intro he; cases he; exact h rfl)
  | .ok a, .ok b =>
    if h : a = b then isTrue (by rw [h])
    else isFalse (by intro he; cases he; exact h rfl)
  | .error _, .ok _ => isFalse (by intro h; cases h)
  | .ok _, .error _ => isFalse (by intro h; cases h)

/-- One firing of the four-way `tokio::select!` inside `WsConsumer::stream`,
together with what the environment delivered on that arm:

* `cancelled close_send_ok` — the shutdown token fired; `close_send_ok` is
  whether the transport accepted the close frame;
* `inbound r` — `ws_stream.next()` completed: `none` is stream end,
  `some (.error e)` a transport read error, `some (.ok m)` a decoded frame;
* `outbound m send_ok` — `receiver.recv()` completed: `none` means the
  channel is closed, `some m` a queued message, with `send_ok` whether the
  transport accepted the write;
* `heartbeat` — the heartbeat interval ticked. -/
inductive StreamEvent
  | cancelled (close_send_ok : Bool)
  | inbound (result : Option (Except String Message))
  | outbound (message : Option Message) (send_ok : Bool)
  | heartbeat
deriving DecidableEq, Repr

/-- What a (finished or still-running) `stream` call has produced:
`result = none` means the scripted events ran out with the loop still
selecting; `close_frames_sent` counts close frames successfully written to
the transport; `delivered` lists the frames handed to `callback.on_message`. -/
structure StreamOutcome (σ : Type) where
  result : Option (Except AppError Unit)
  state : σ
  close_frames_sent : ℕ
  delivered : List Message

/-- The `loop { tokio::select! { … } }` body of `WsConsumer::stream`, run over
a finite script of select firings:

* shutdown: send a close frame; on transport failure return that error,
  otherwise return `Ok(())`;
* inbound `None` / transport error: return a websocket error;
* inbound frame: `callback.on_message(frame)?` — an `Err` aborts the stream
  with that error, `Ok` continues the loop;
* outbound message: write it to the transport, a failed write aborts with an
  error; a closed channel aborts with an error;
* heartbeat tick: `let _ = callback.on_heartbeat()` — the result is ignored
  (the state change is kept on success). -/
def streamLoop (cb : CallbackM σ) : σ → List StreamEvent → StreamOutcome σ
  | s, [] => ⟨none, s, 0, []⟩
  | s, e :: rest =>
    match e with
    | .cancelled close_send_ok =>
      if close_send_ok then ⟨some (.ok ()), s, 1, []⟩
      else ⟨some (.error (.webSocketError "failed to send close frame")), s, 0, []⟩
    | .inbound none =>
      ⟨some (.error (.webSocketError "websocket stream closed unexpectedly")), s, 0, []⟩
    | .inbound (some (.error _)) =>
      ⟨some (.error (.webSocketError "websocket streaming error")), s, 0, []⟩
    | .inbound (some (.ok m)) =>
      match cb.on_message s m with
      | .error e => ⟨some (.error e), s, 0, [m]⟩
      | .ok s1 =>
        let o := streamLoop cb s1 rest
        ⟨o.result, o.state, o.close_frames_sent, m :: o.delivered⟩
    | .outbound none _ =>
      ⟨some (.error (.webSocketError "receiver channel closed unexpectedly")), s, 0, []⟩
    | .outbound (some m) send_ok =>
      if send_ok then
        let o := streamLoop cb s rest
        ⟨o.result, o.state, o.close_frames_sent + (if m = .close then 1 else 0), o.delivered⟩
      else ⟨some (.error (.webSocketError "failed to send message")), s, 0, []⟩
    | .heartbeat =>
      match cb.on_heartbeat s with
      | .ok s1 => streamLoop cb s1 rest
      | .error _ => streamLoop cb s rest

/-- Rust `WsConsumer::stream`: `callback.on_connect(now)?` and then the
select loop. -/
def stream (cb : CallbackM σ) (s : σ) (events : List StreamEvent) : StreamOutcome σ :=
  match cb.on_connect s with
  | .error e => ⟨some (.error e), s, 0, []⟩
  | .ok s1 => streamLoop cb s1 events

/-- One iteration of the reconnect loop in `WsConsumer::run`: either
`connect_async` failed, or it succeeded and the connection then behaved as
the given select script. -/
inductive ConnectAttempt
  | failure
  | success (events : List StreamEvent)

/-- Rust `WsConsumer::run`, over a finite script of connection attempts.
Each loop iteration consults `backoff.next()` first (exhaustion is the fatal
`Err` exit); a failed connect retries without resetting the backoff; a
successful connect resets the backoff and runs `stream`; when `stream`
returns, `callback.on_disconnect()?` runs, then an `Ok` stream result
returns `Ok(())` and an `Err` result retries.  A `none` result means the
script ended with the consumer still running. -/
def run (cb : CallbackM σ) (b : ExponentialBackoff) (s : σ) :
    List ConnectAttempt → Option (Except AppError Unit) × σ
  | [] => (none, s)
  | a :: rest =>
    match b.next with
    | none =>
      (some (.error (.webSocketError "failed to connect after retries")), s)
    | some (_, b1) =>
      match a with
      | .failure => run cb b1 s rest
      | .success events =>
        let o := stream cb s events
        match o.result with
        | none => (none, o.state)
        | some r =>
          match cb.on_disconnect o.state with
          | .error e => (some (.error e), o.state)
          | .ok s2 =>
            match r with
            | .ok _ => (some (.ok ()), s2)
            | .error _ => run cb (ExponentialBackoff.reset b1) s2 rest

/-! ## Coinbase protocol callback —
`src/crates/adapters/src/coinbase/wsclient.rs` -/

/-- A successfully deserialized `CoinbaseMessage`; its JSON structure is
irrelevant to the claims and kept as the raw payload. -/
structure CoinbaseMessage where
  raw : String
deriving DecidableEq, Repr

/-- Rust struct `CoinbaseWsClient`: the producer half of the outbound
channel plus the broadcast sender. `subscriber_count` is the number of live
`broadcast::Receiver`s (a tokio broadcast `send` fails when it is zero). -/
structure CoinbaseWsClient where
  ws_url : String
  sender : OutboundQueue
  subscriber_count : ℕ
deriving DecidableEq, Repr

namespace CoinbaseWsClient

/-- Rust `CoinbaseWsClient::write`: one `try_send` on the outbound channel,
mapping failure to `AppError::WebSocketError` without retrying. -/
def write (c : CoinbaseWsClient) (message : Message) :
    Except AppError Unit × CoinbaseWsClient :=
  match c.sender.try_send message with
  | .ok q1 => (.ok (), { c with sender := q1 })
  | .error _ =>
    (.error (.webSocketError "failed to send message to websocket"), c)

/-- Rust `CoinbaseWsClient::on_message` (the `WsCallback` impl), with serde
JSON deserialization abstracted as the `decode` parameter:

* a text frame is decoded; on failure the error is logged **and the function
  returns `Err(AppError::WebSocketError(…))`**; on success the decoded
  message is broadcast (failing if there is no subscriber);
* a close frame calls `on_disconnect` (which returns `Ok`);
* a ping frame writes a pong reply onto the outbound queue via `write(…)?`;
* all other frames are logged and ignored.

The second component of a successful result lists the broadcast messages. -/
def on_message (decode : String → Option CoinbaseMessage) (c : CoinbaseWsClient)
    (message : Message) : Except AppError (CoinbaseWsClient × List CoinbaseMessage) :=
  match message with
  | .text payload =>
    match decode payload with
    | none => .error (.webSocketError "Failed to parse Coinbase message")
    | some m =>
      if c.subscriber_count = 0 then
        .error (.webSocketError "Failed to broadcast message")
      else .ok (c, [m])
  | .close => .ok (c, [])
  | .ping payload =>
    match c.write (.pong payload) with
    | (.ok _, c1) => .ok (c1, [])
    | (.error e, _) => .error e
  | _ => .ok (c, [])

end CoinbaseWsClient

/-- The Coinbase client as a `CallbackM` over the state
`CoinbaseWsClient × List CoinbaseMessage`, the list accumulating every
message broadcast so far.  `on_connect`, `on_disconnect` and `on_heartbeat`
only log and return `Ok`. -/
def coinbaseCallback (decode : String → Option CoinbaseMessage) :
    CallbackM (CoinbaseWsClient × List CoinbaseMessage) :=
  { on_connect := fun s => .ok s
    on_message := fun s m =>
      match CoinbaseWsClient.on_message decode s.1 m with
      | .error e => .error e
      | .ok (c1, broadcasts) => .ok (c1, s.2 ++ broadcasts)
    on_disconnect := fun s => .ok s
    on_heartbeat := fun s => .ok s }

/-- A select firing is benign when the `stream` loop keeps looping after it
and no close frame is written: a heartbeat tick, an inbound frame the
callback accepts, or an outbound non-close message the transport accepts.
`benignStep` returns the state the loop continues with, `none` otherwise. -/
def benignStep (cb : CallbackM σ) (s : σ) : StreamEvent → Option σ
  | .heartbeat =>
    some (match cb.on_heartbeat s with | .ok s1 => s1 | .error _ => s)
  | .inbound (some (.ok m)) =>
    match cb.on_message s m with | .ok s1 => some s1 | .error _ => none
  | .outbound (some m) true => if m = .close then none else some s
  | _ => none

/-- Folding `benignStep` over a script: `some s1` when every event is benign
and the loop reaches state `s1`. -/
def benignRun (cb : CallbackM σ) : σ → List StreamEvent → Option σ
  | s, [] => some s
  | s, e :: rest =>
    match benignStep cb s e with
    | none => none
    | some s1 => benignRun cb s1 rest

/-! # Theorems

## Backoff sequencer lemmas -/

lemma next_not_exhausted (b : ExponentialBackoff)
    (h : ¬(b.retries > 0 ∧ b.counter ≥ b.retries)) :
    b.next = some (b.value_secs,
      { b with counter := (b.counter + 1) % 2^8,
               value_secs :=
                 if (b.counter + 1) % 2^8 = 0 then b.min_secs
                 else if b.value_secs * b.factor % 2^32 > b.max_secs then b.max_secs
                 else b.value_secs * b.factor % 2^32 }) := by
  rw [ExponentialBackoff.next, if_neg h]

lemma next_exhausted (b : ExponentialBackoff)
    (h : b.retries > 0 ∧ b.counter ≥ b.retries) : b.next = none := by
  rw [ExponentialBackoff.next, if_pos h]

lemma iterB_shift (b : ExponentialBackoff) :
    ∀ n, iterB (stepB b) n = stepB (iterB b n)
  | 0 => rfl
  | n + 1 => by
    simp only [iterB]
    rw [iterB_shift b n]

lemma outB_eq_iterB (b : ExponentialBackoff) :
    ∀ n, outB b n = (iterB b n).next.map Prod.fst
  | 0 => rfl
  | n + 1 => by
    simp only [outB, iterB]
    rw [outB_eq_iterB (stepB b) n, iterB_shift]

lemma specDelay_le_max (minD maxD factor : ℕ) (h : minD ≤ maxD) :
    ∀ n, specDelay minD maxD factor n ≤ maxD
  | 0 => h
  | n + 1 => by rw [specDelay]; exact min_le_left _ _

/-- The clamped step of the source equals `Nat.min` of the specification,
once the u32 product does not overflow. -/
lemma value_step_eq_min (maxD factor v : ℕ) (hv : v ≤ maxD)
    (hov : maxD * factor < 2^32) :
    (if v * factor % 2^32 > maxD then maxD else v * factor % 2^32)
      = min maxD (v * factor) := by
  have hlt : v * factor < 2^32 :=
    lt_of_le_of_lt (Nat.mul_le_mul_right _ hv) hov
  rw [Nat.mod_eq_of_lt hlt]
  split <;> omega

/-- State invariant for `max_retries = 0` (unlimited retries): after `n`
calls, the u8 counter holds `n % 256` and the value follows the
specification sequence at index `n % 256` — the sequencer is periodic with
period 256 because `counter += 1` wraps. -/
lemma iterB_unlimited (minD maxD factor : ℕ) (h1 : minD ≤ maxD)
    (hov : maxD * factor < 2^32) :
    ∀ n, iterB (ExponentialBackoff.new 0 minD maxD factor) n =
      { retries := 0, min_secs := minD, max_secs := maxD, factor := factor,
        counter := n % 2^8, value_secs := specDelay minD maxD factor (n % 2^8) }
  | 0 => by simp [iterB, ExponentialBackoff.new, specDelay]
  | n + 1 => by
    rw [iterB, iterB_unlimited minD maxD factor h1 hov n]
    rw [stepB, next_not_exhausted _ (by simp)]
    have hc : (n % 2^8 + 1) % 2^8 = (n + 1) % 2^8 := by omega
    rcases Nat.eq_zero_or_pos ((n + 1) % 2^8) with h0 | hpos
    · have h0l : (n % 2^8 + 1) % 2^8 = 0 := by omega
      rw [h0l, h0, if_pos rfl, specDelay]
    · have h0l : ¬((n % 2^8 + 1) % 2^8 = 0) := by omega
      have hs : (n + 1) % 2^8 = n % 2^8 + 1 := by omega
      rw [if_neg h0l, value_step_eq_min maxD factor _
            (specDelay_le_max minD maxD factor h1 _) hov, hc, hs, specDelay]

/-- State invariant for `0 < max_retries < 256`: after `n` calls the counter
holds `min n retries` and the value follows the specification sequence at
that index; once the counter reaches `retries` the state is frozen. -/
lemma iterB_limited (retries minD maxD factor : ℕ) (hr0 : 0 < retries)
    (hr : retries < 2^8) (h1 : minD ≤ maxD) (hov : maxD * factor < 2^32) :
    ∀ n, iterB (ExponentialBackoff.new retries minD maxD factor) n =
      { retries := retries, min_secs := minD, max_secs := maxD, factor := factor,
        counter := min n retries,
        value_secs := specDelay minD maxD factor (min n retries) }
  | 0 => by simp [iterB, ExponentialBackoff.new, specDelay]
  | n + 1 => by
    rw [iterB, iterB_limited retries minD maxD factor hr0 hr h1 hov n]
    rcases le_or_lt retries n with hge | hlt
    · have hmin : min n retries = retries := min_eq_right hge
      have hmin1 : min (n + 1) retries = retries :=
        min_eq_right (le_trans hge (Nat.le_succ n))
      rw [hmin, hmin1, stepB, next_exhausted _ ⟨hr0, le_refl retries⟩]
    · have hmin : min n retries = n := min_eq_left hlt.le
      have hmin1 : min (n + 1) retries = n + 1 := min_eq_left hlt
      rw [hmin, hmin1, stepB,
        next_not_exhausted _ (by simp only []; omega)]
      have hc : (n + 1) % 2^8 = n + 1 := Nat.mod_eq_of_lt (by omega)
      simp only [hc]
      rw [if_neg (by omega), value_step_eq_min maxD factor _
            (specDelay_le_max minD maxD factor h1 _) hov, specDelay]

/-- Specialization: for `new(0, 1, 5, 10)` the spec sequence is `1, 5, 5, …`. -/
lemma specDelay_one_five_ten : ∀ n, specDelay 1 5 10 (n + 1) = 5
  | 0 => by decide
  | n + 1 => by rw [specDelay, specDelay_one_five_ten n]; decide

/-! ## Claim C1 — `reset()` -/

/-- **C1** (code bug).  The claim says `reset()` restores the sequencer to
its pre-failure state so that the next `next()` yields `min_delay` (`1` for
`new(3, 1, 8, 2)`).  The code instead sets `value_secs = 0` in `reset()`, so
the post-reset `next()` yields `0`, not `1`; only the retry budget
(`counter = 0`, conjunct three) is restored.  This contradicts the
specification, which names zero-after-reset a defect that must not be
perpetuated. -/
theorem C1_reset_yields_zero_not_min_delay :
    (∀ b : ExponentialBackoff, b.reset.counter = 0 ∧ b.reset.value_secs = 0)
    ∧ ((stepB (ExponentialBackoff.new 3 1 8 2)).reset.next).map Prod.fst = some 0
    ∧ (ExponentialBackoff.new 3 1 8 2).min_secs = 1
    ∧ (stepB (ExponentialBackoff.new 3 1 8 2)).reset.get_iteration_count = 0 := by
  exact ⟨fun b => ⟨rfl, rfl⟩, by decide, rfl, rfl⟩

/-! ## Claim C4 — the delay sequence of `next()` -/

/-- **C4** (amended).  For a fresh `new(retries, min, max, factor)` with
`min ≤ max`, no u32 overflow in the clamped product (`max · factor < 2^32`),
and `retries` in the u8 range: when `retries = 0` the `n`-th `next()` yields
`delay_(n % 256)` of the specification sequence `delay_0 = min`,
`delay_n = min(max, delay_(n-1) · factor)` — periodic because the u8 counter
wraps, so the 257th call restarts at `min` instead of staying clamped — and
exhaustion never occurs; when `0 < retries` the first `retries` calls yield
`delay_0, …, delay_(retries-1)` and every later call yields exhaustion. -/
theorem C4_next_follows_spec_sequence (retries minD maxD factor : ℕ)
    (h1 : minD ≤ maxD) (hov : maxD * factor < 2^32) (hr : retries < 2^8) :
    (retries = 0 → ∀ n,
      outB (ExponentialBackoff.new retries minD maxD factor) n
        = some (specDelay minD maxD factor (n % 2^8)))
    ∧ (0 < retries → ∀ n,
      outB (ExponentialBackoff.new retries minD maxD factor) n
        = if n < retries then some (specDelay minD maxD factor n) else none) := by
  constructor
  · rintro rfl n
    rw [outB_eq_iterB, iterB_unlimited minD maxD factor h1 hov n,
      next_not_exhausted _ (by simp)]
    rfl
  · intro hr0 n
    rw [outB_eq_iterB, iterB_limited retries minD maxD factor hr0 hr h1 hov n]
    by_cases hn : n < retries
    · have hne : ¬(retries > 0 ∧ min n retries ≥ retries) := by omega
      rw [next_not_exhausted _ hne, if_pos hn, min_eq_left hn.le]
      rfl
    · rw [next_exhausted _ ⟨hr0, show min n retries ≥ retries by omega⟩, if_neg hn]
      rfl

/-- Witness for C4: concrete instances of both branches — `new(3, 1, 8, 2)`
yields `1, 2, 4` then exhaustion, and `new(0, 1, 5, 10)` yields `5` at the
third call. -/
theorem C4_next_follows_spec_sequence_witness :
    outB (ExponentialBackoff.new 3 1 8 2) 0 = some 1
    ∧ outB (ExponentialBackoff.new 3 1 8 2) 1 = some 2
    ∧ outB (ExponentialBackoff.new 3 1 8 2) 2 = some 4
    ∧ outB (ExponentialBackoff.new 3 1 8 2) 3 = none
    ∧ outB (ExponentialBackoff.new 0 1 5 10) 2 = some 5 := by
  have h382 := (C4_next_follows_spec_sequence 3 1 8 2 (by decide) (by decide)
    (by decide)).2 (by decide)
  have h0510 := (C4_next_follows_spec_sequence 0 1 5 10 (by decide) (by decide)
    (by decide)).1 rfl
  refine ⟨?_, ?_, ?_, ?_, ?_⟩
  · rw [h382 0]; decide
  · rw [h382 1]; decide
  · rw [h382 2]; decide
  · rw [h382 3]; decide
  · rw [h0510 2]; decide

/-- Counterexample to C4 as stated.  Two concrete violations: (a) u32
wrapping — for `new(0, 2^31, 2^32 - 1, 2)` the second call yields `0`
(`2^31 · 2` wraps to `0` in u32), while the claimed recurrence demands
`min(2^32 - 1, 2^31 · 2) = 2^32 - 1`; (b) u8 counter wrap — for
`new(0, 1, 5, 10)` the 257th call yields `1`, not the claimed clamped `5`,
because `counter += 1` wraps to `0` and the value is reseeded from
`min_secs`. -/
theorem C4_counterexample :
    (outB (ExponentialBackoff.new 0 (2^31) (2^32 - 1) 2) 1 = some 0
      ∧ specDelay (2^31) (2^32 - 1) 2 1 = 2^32 - 1 ∧ (0 : ℕ) ≠ 2^32 - 1)
    ∧ (outB (ExponentialBackoff.new 0 1 5 10) 256 = some 1
      ∧ specDelay 1 5 10 256 = 5 ∧ (1 : ℕ) ≠ 5) := by
  refine ⟨⟨by decide, by decide, by decide⟩, ⟨?_, ?_, by decide⟩⟩
  · rw [outB_eq_iterB, iterB_unlimited 1 5 10 (by decide) (by decide) 256,
      next_not_exhausted _ (by simp)]
    rfl
  · exact specDelay_one_five_ten 255

/-! ## Claims C3, C6, C7, C8 — the exact price engine -/

/-- **C3.**  For `sqrt_ratio = 2^96` (price `1.0`), token decimals
`(18, 18)`, `invert = false`, `to_fixed(2, None)` returns exactly `"1.00"`:
the ratio is `2^192 / 2^192 = 1`, the scale `10^18 / 10^18 = 1`, and the
half-up rounding to two decimal places renders `1` as `"1.00"`. -/
theorem C3_round_trip_price_one :
    (SpotPrice.new_from_sqrt_ratio_x96 (2^96) 18 18 false).to_fixed 2 = "1.00" := by
  have hsp : SpotPrice.new_from_sqrt_ratio_x96 (2^96) 18 18 false
      = { numerator := Q192, denominator := Q192, scale := 1 } := by
    rw [SpotPrice.new_from_sqrt_ratio_x96]
    norm_num [Q192]
  have hval : SpotPrice.adjsusted_to_decimal
      { numerator := Q192, denominator := Q192, scale := 1 } = 1 := by
    rw [SpotPrice.adjsusted_to_decimal, SpotPrice.to_decimal]
    norm_num [Q192]
  rw [SpotPrice.to_fixed, hsp, hval]
  have hround : roundHalfUp ((1 : ℚ) * (10 : ℚ) ^ (2 : ℕ)) = 100 := by
    rw [roundHalfUp, Int.floor_eq_iff]
    norm_num
  rw [hround]
  rfl

/-- **C6.**  For token decimals `(18, 6)` and `sqrt_ratio = 2^96` (raw price
`1.0`), the adjusted decimal price is exactly `10^12`; the scale is stored
as the exact ratio `10^18 / 10^6` and is applied by multiplication
(`adjsusted_to_decimal = to_decimal() * scale`, last conjunct, holds for
every `SpotPrice`). -/
theorem C6_multiplicative_decimal_scaling :
    (SpotPrice.new_from_sqrt_ratio_x96 (2^96) 18 6 false).adjsusted_to_decimal
      = 10 ^ 12
    ∧ (SpotPrice.new_from_sqrt_ratio_x96 (2^96) 18 6 false).scale
      = (10 : ℚ) ^ 18 / (10 : ℚ) ^ 6
    ∧ (∀ p : SpotPrice, p.adjsusted_to_decimal = p.to_decimal * p.scale) := by
  refine ⟨?_, ?_, fun p => rfl⟩
  · rw [SpotPrice.new_from_sqrt_ratio_x96]
    norm_num [SpotPrice.adjsusted_to_decimal, SpotPrice.to_decimal, Q192]
  · rw [SpotPrice.new_from_sqrt_ratio_x96]
    norm_num

/-- **C7.**  Invert symmetry at the level of the exact values the `SpotPrice`
fields denote: for every nonzero `sqrt_ratio` in the `U160` domain and token
decimals in the `I512`-representable range, the adjusted decimal values of
`compute(r, d0, d1, false)` and `compute(r, d1, d0, true)` multiply to
exactly `1` (the two constructions are reciprocal-and-rescaled; the only
deviation the code can introduce is the rounding of the final formatting
step, which this identity is stated before). -/
theorem C7_invert_symmetry (r d0 d1 : ℕ) (hr : 0 < r) (_hru : r < 2^160)
    (_hd0 : d0 ≤ 153) (_hd1 : d1 ≤ 153) :
    (SpotPrice.new_from_sqrt_ratio_x96 r d0 d1 false).adjsusted_to_decimal
      * (SpotPrice.new_from_sqrt_ratio_x96 r d1 d0 true).adjsusted_to_decimal
      = 1 := by
  rw [SpotPrice.new_from_sqrt_ratio_x96, SpotPrice.new_from_sqrt_ratio_x96]
  simp only [Bool.false_eq_true, if_false, if_true, SpotPrice.adjsusted_to_decimal,
    SpotPrice.to_decimal, Q192]
  have hr0 : (r : ℚ) ≠ 0 := Nat.cast_ne_zero.mpr hr.ne'
  have h2 : ((2 : ℚ)) ^ (192 : ℕ) ≠ 0 := by norm_num
  have h10a : ((10 : ℚ)) ^ d0 ≠ 0 := pow_ne_zero _ (by norm_num)
  have h10b : ((10 : ℚ)) ^ d1 ≠ 0 := pow_ne_zero _ (by norm_num)
  push_cast
  field_simp

/-- Witness for C7 at `r = 3`, `d0 = 18`, `d1 = 6`. -/
theorem C7_invert_symmetry_witness :
    (SpotPrice.new_from_sqrt_ratio_x96 3 18 6 false).adjsusted_to_decimal
      * (SpotPrice.new_from_sqrt_ratio_x96 3 6 18 true).adjsusted_to_decimal
      = 1 :=
  C7_invert_symmetry 3 18 6 (by decide) (by decide) (by decide) (by decide)

/-- **C8.**  For `sqrt_ratio = 0` with `invert = true` (any token decimals):
the numerator is `0`, the denominator is the nonzero constant `2^192`, the
adjusted decimal value is a well-defined `0`, and `to_fixed(2, None)`
renders it as `"0.00"` — no division by zero is reachable. -/
theorem C8_zero_ratio_inverted_is_zero_price (d0 d1 : ℕ) :
    (SpotPrice.new_from_sqrt_ratio_x96 0 d0 d1 true).numerator = 0
    ∧ (SpotPrice.new_from_sqrt_ratio_x96 0 d0 d1 true).denominator = 2 ^ 192
    ∧ (SpotPrice.new_from_sqrt_ratio_x96 0 d0 d1 true).denominator ≠ 0
    ∧ (SpotPrice.new_from_sqrt_ratio_x96 0 d0 d1 true).adjsusted_to_decimal = 0
    ∧ (SpotPrice.new_from_sqrt_ratio_x96 0 d0 d1 true).to_fixed 2 = "0.00" := by
  have hval : (SpotPrice.new_from_sqrt_ratio_x96 0 d0 d1 true).adjsusted_to_decimal
      = 0 := by
    rw [SpotPrice.new_from_sqrt_ratio_x96]
    norm_num [SpotPrice.adjsusted_to_decimal, SpotPrice.to_decimal]
  refine ⟨by rw [SpotPrice.new_from_sqrt_ratio_x96]; norm_num,
    by rw [SpotPrice.new_from_sqrt_ratio_x96]; norm_num [Q192],
    by rw [SpotPrice.new_from_sqrt_ratio_x96]; norm_num [Q192],
    hval, ?_⟩
  rw [SpotPrice.to_fixed, hval]
  have hround : roundHalfUp ((0 : ℚ) * (10 : ℚ) ^ (2 : ℕ)) = 0 := by
    rw [roundHalfUp, Int.floor_eq_iff]
    norm_num
  rw [hround]
  rfl

/-! ## Claim C9 — non-blocking `write` -/

/-- **C9.**  The client-facing `write(message)` is a single `try_send`, for
both `WsClient::write` and `CoinbaseWsClient::write`: on a full queue it
fails immediately with the saturation error and leaves the queue untouched
(no internal retry, no enqueue); otherwise it appends the message and
returns `Ok`.  Being a total function of the queue state, it never suspends
the caller. -/
theorem C9_write_is_nonblocking (c : WsClient) (cc : CoinbaseWsClient) (m : Message) :
    (c.queue.capacity ≤ c.queue.buffer.length →
      c.write m = (.error (.webSocketError "failed to send message to websocket"), c))
    ∧ (c.queue.buffer.length < c.queue.capacity →
      c.write m = (.ok (),
        { c with queue := { c.queue with buffer := c.queue.buffer ++ [m] } }))
    ∧ (cc.sender.capacity ≤ cc.sender.buffer.length →
      cc.write m = (.error (.webSocketError "failed to send message to websocket"), cc))
    ∧ (cc.sender.buffer.length < cc.sender.capacity →
      cc.write m = (.ok (),
        { cc with sender := { cc.sender with buffer := cc.sender.buffer ++ [m] } })) := by
  refine ⟨fun hfull => ?_, fun hroom => ?_, fun hfull => ?_, fun hroom => ?_⟩
  · rw [WsClient.write, OutboundQueue.try_send, if_pos hfull]
  · rw [WsClient.write, OutboundQueue.try_send, if_neg (by omega)]
  · rw [CoinbaseWsClient.write, OutboundQueue.try_send, if_pos hfull]
  · rw [CoinbaseWsClient.write, OutboundQueue.try_send, if_neg (by omega)]

/-- Witness for C9: a full queue (capacity 1, one pending message) rejects a
write and is left unchanged; a queue with room accepts it. -/
theorem C9_write_is_nonblocking_witness :
    (WsClient.write
        { ws_url := "u", queue := { capacity := 1, buffer := [.close] },
          receiver := some 0, heartbeat_millis := 5000 } (.text "hi")
      = (.error (.webSocketError "failed to send message to websocket"),
         { ws_url := "u", queue := { capacity := 1, buffer := [.close] },
           receiver := some 0, heartbeat_millis := 5000 }))
    ∧ (WsClient.write
        { ws_url := "u", queue := { capacity := 2, buffer := [.close] },
          receiver := some 0, heartbeat_millis := 5000 } (.text "hi")
      = (.ok (),
         { ws_url := "u", queue := { capacity := 2, buffer := [.close, .text "hi"] },
           receiver := some 0, heartbeat_millis := 5000 })) := by
  constructor
  · exact (C9_write_is_nonblocking
      { ws_url := "u", queue := { capacity := 1, buffer := [.close] },
        receiver := some 0, heartbeat_millis := 5000 }
      { ws_url := "u", sender := { capacity := 1, buffer := [] }, subscriber_count := 0 }
      (.text "hi")).1 (by decide)
  · exact (C9_write_is_nonblocking
      { ws_url := "u", queue := { capacity := 2, buffer := [.close] },
        receiver := some 0, heartbeat_millis := 5000 }
      { ws_url := "u", sender := { capacity := 1, buffer := [] }, subscriber_count := 0 }
      (.text "hi")).2.1 (by decide)

/-! ## Claim C10 — `consumer()` succeeds at most once -/

lemma consumerSuccessCount_receiver_none (c : WsClient) (h : c.receiver = none) :
    ∀ n, consumerSuccessCount c n = 0
  | 0 => rfl
  | n + 1 => by
    rw [consumerSuccessCount, WsClient.consumer, h]
    exact consumerSuccessCount_receiver_none c h n

/-- **C10.**  `consumer(callback)` succeeds at most once per client: among
any number of consecutive calls at most one returns `Ok` (first conjunct);
when the receiver is present the call succeeds, moves the receiver into the
returned `WsConsumer` (paired with a default backoff) and leaves `None`
behind; once the receiver is `None` every call fails with the
"receiver is not initialized" error and changes nothing. -/
theorem C10_consumer_succeeds_at_most_once (c : WsClient) (n : ℕ) :
    consumerSuccessCount c n ≤ 1
    ∧ (∀ r, c.receiver = some r →
        c.consumer = (.ok { ws_url := c.ws_url, heartbeat_millis := c.heartbeat_millis,
                            backoff := ExponentialBackoff.default, receiver := r },
                      { c with receiver := none }))
    ∧ (c.receiver = none →
        c.consumer
          = (.error (.webSocketError "WebSocket client receiver is not initialized"), c)) := by
  refine ⟨?_, fun r hr => by rw [WsClient.consumer, hr], fun hn => by rw [WsClient.consumer, hn]⟩
  cases n with
  | zero => exact Nat.zero_le 1
  | succ n =>
    rcases hc : c.receiver with _ | r
    · simp only [consumerSuccessCount, WsClient.consumer, hc]
      exact le_trans (Nat.le_of_eq (consumerSuccessCount_receiver_none c hc n)) (by omega)
    · simp only [consumerSuccessCount, WsClient.consumer, hc]
      have h0 : consumerSuccessCount { c with receiver := none } n = 0 :=
        consumerSuccessCount_receiver_none _ rfl n
      omega

/-- Witness for C10: a concrete client whose first call succeeds (moving the
receiver out) and whose second call fails; two calls produce exactly one
success. -/
theorem C10_consumer_succeeds_at_most_once_witness :
    consumerSuccessCount
      { ws_url := "u", queue := { capacity := 4, buffer := [] },
        receiver := some 7, heartbeat_millis := 1000 } 2 ≤ 1
    ∧ WsClient.consumer
        { ws_url := "u", queue := { capacity := 4, buffer := [] },
          receiver := some 7, heartbeat_millis := 1000 }
      = (.ok { ws_url := "u", heartbeat_millis := 1000,
               backoff := ExponentialBackoff.default, receiver := 7 },
         { ws_url := "u", queue := { capacity := 4, buffer := [] },
           receiver := none, heartbeat_millis := 1000 })
    ∧ WsClient.consumer
        { ws_url := "u", queue := { capacity := 4, buffer := [] },
          receiver := none, heartbeat_millis := 1000 }
      = (.error (.webSocketError "WebSocket client receiver is not initialized"),
         { ws_url := "u", queue := { capacity := 4, buffer := [] },
           receiver := none, heartbeat_millis := 1000 }) := by
  refine ⟨(C10_consumer_succeeds_at_most_once
      { ws_url := "u", queue := { capacity := 4, buffer := [] },
        receiver := some 7, heartbeat_millis := 1000 } 2).1, ?_, ?_⟩
  · exact (C10_consumer_succeeds_at_most_once
      { ws_url := "u", queue := { capacity := 4, buffer := [] },
        receiver := some 7, heartbeat_millis := 1000 } 0).2.1 7 rfl
  · exact (C10_consumer_succeeds_at_most_once
      { ws_url := "u", queue := { capacity := 4, buffer := [] },
        receiver := none, heartbeat_millis := 1000 } 0).2.2 rfl

/-! ## Claim C2 — malformed frames and failed polls -/

/-- **C2** (code bug).  The claim (and spec §7a) says a malformed inbound
text frame is skipped and the stream keeps delivering, and a failed poll
leaves the Collector's stream emitting on later polls.  The code does
neither.  (1) `CoinbaseWsClient::on_message` returns
`Err(WebSocketError("Failed to parse Coinbase message"))` on a decode
failure; (2) inside `WsConsumer::stream` the `on_message(...)?` propagates
that error, aborting the select loop — here the well-formed frame `"g"`
queued right after the malformed `"b"` is never delivered and nothing is
broadcast; (3) `watch_pool`'s unfold closure returns `None` on a failed
`getSlot0` call, which ends the `stream::unfold` stream for good (its own
comment says "continue stream"), so the successful poll scheduled right
after the failure emits nothing — while a success-only script does emit
(last conjunct). -/
theorem C2_malformed_frame_and_failed_poll_are_fatal :
    (CoinbaseWsClient.on_message (fun s => if s = "b" then none else some ⟨s⟩)
        { ws_url := "w", sender := { capacity := 8, buffer := [] }, subscriber_count := 1 }
        (.text "b")
      = .error (.webSocketError "Failed to parse Coinbase message"))
    ∧ ((stream (coinbaseCallback (fun s => if s = "b" then none else some ⟨s⟩))
          ({ ws_url := "w", sender := { capacity := 8, buffer := [] },
             subscriber_count := 1 }, [])
          [.inbound (some (.ok (.text "b"))), .inbound (some (.ok (.text "g")))]).result
        = some (.error (.webSocketError "Failed to parse Coinbase message")))
    ∧ ((stream (coinbaseCallback (fun s => if s = "b" then none else some ⟨s⟩))
          ({ ws_url := "w", sender := { capacity := 8, buffer := [] },
             subscriber_count := 1 }, [])
          [.inbound (some (.ok (.text "b"))), .inbound (some (.ok (.text "g")))]).delivered
        = [.text "b"])
    ∧ ((stream (coinbaseCallback (fun s => if s = "b" then none else some ⟨s⟩))
          ({ ws_url := "w", sender := { capacity := 8, buffer := [] },
             subscriber_count := 1 }, [])
          [.inbound (some (.ok (.text "b"))), .inbound (some (.ok (.text "g")))]).state.2
        = [])
    ∧ (watchPoolEmissions false
        [none, some { sqrtPriceX96 := 2^96, tick := 0, protocolFee := 0, lpFee := 3000 }]
        = [])
    ∧ (watchPoolEmissions false
        [some { sqrtPriceX96 := 2^96, tick := 0, protocolFee := 0, lpFee := 3000 }]
        = [PoolSlotData.new (2^96) 0 0 3000 18 6 false]) :=
  ⟨rfl, rfl, rfl, rfl, rfl, rfl⟩

/-! ## Claim C5 — cancellation is the sole clean exit of `run` -/

/-- After any benign prefix, a cancellation firing whose close frame the
transport accepts makes the select loop return `Ok(())` having sent exactly
one close frame. -/
lemma streamLoop_cancel_after_benign (cb : CallbackM σ) :
    ∀ (pre : List StreamEvent) (s s1 : σ) (suf : List StreamEvent),
      benignRun cb s pre = some s1 →
      (streamLoop cb s (pre ++ StreamEvent.cancelled true :: suf)).result = some (.ok ())
      ∧ (streamLoop cb s (pre ++ StreamEvent.cancelled true :: suf)).close_frames_sent = 1
  | [], s, s1, suf, _ => by simp [streamLoop]
  | .cancelled b :: pre, s, s1, suf, h => by
    simp [benignRun, benignStep] at h
  | .inbound none :: pre, s, s1, suf, h => by
    simp [benignRun, benignStep] at h
  | .inbound (some (.error e1)) :: pre, s, s1, suf, h => by
    simp [benignRun, benignStep] at h
  | .inbound (some (.ok m)) :: pre, s, s1, suf, h => by
    rcases hm : cb.on_message s m with e1 | s2
    · rw [benignRun] at h
      simp [benignStep, hm] at h
    · rw [benignRun] at h
      simp only [benignStep, hm] at h
      have ih := streamLoop_cancel_after_benign cb pre s2 s1 suf h
      simp only [List.cons_append, streamLoop, hm]
      exact ih
  | .outbound none b :: pre, s, s1, suf, h => by
    simp [benignRun, benignStep] at h
  | .outbound (some m) false :: pre, s, s1, suf, h => by
    simp [benignRun, benignStep] at h
  | .outbound (some m) true :: pre, s, s1, suf, h => by
    rw [benignRun] at h
    by_cases hmc : m = .close
    · simp [benignStep, hmc] at h
    · simp only [benignStep, if_neg hmc] at h
      have ih := streamLoop_cancel_after_benign cb pre s s1 suf h
      refine ⟨?_, ?_⟩ <;>
        simp [List.cons_append, streamLoop, if_neg hmc, ih.1, ih.2]
  | .heartbeat :: pre, s, s1, suf, h => by
    rw [benignRun] at h
    rcases hh : cb.on_heartbeat s with e1 | s2
    · simp only [benignStep, hh] at h
      have ih := streamLoop_cancel_after_benign cb pre s s1 suf h
      simp only [List.cons_append, streamLoop, hh]
      exact ih
    · simp only [benignStep, hh] at h
      have ih := streamLoop_cancel_after_benign cb pre s2 s1 suf h
      simp only [List.cons_append, streamLoop, hh]
      exact ih

/-- The select loop returns `Ok(())` only by consuming a cancellation firing
whose close frame was accepted — every other terminating arm returns an
error. -/
lemma streamLoop_ok_has_cancel (cb : CallbackM σ) :
    ∀ (evs : List StreamEvent) (s : σ),
      (streamLoop cb s evs).result = some (.ok ()) →
      ∃ pre suf, evs = pre ++ StreamEvent.cancelled true :: suf
  | [], s, h => by simp [streamLoop] at h
  | .cancelled true :: rest, s, _ => ⟨[], rest, rfl⟩
  | .cancelled false :: rest, s, h => by simp [streamLoop] at h
  | .inbound none :: rest, s, h => by simp [streamLoop] at h
  | .inbound (some (.error e1)) :: rest, s, h => by simp [streamLoop] at h
  | .inbound (some (.ok m)) :: rest, s, h => by
    rcases hm : cb.on_message s m with e1 | s1
    · simp [streamLoop, hm] at h
    · simp only [streamLoop, hm] at h
      obtain ⟨pre, suf, heq⟩ := streamLoop_ok_has_cancel cb rest s1 h
      exact ⟨.inbound (some (.ok m)) :: pre, suf, by simp [heq]⟩
  | .outbound none b :: rest, s, h => by simp [streamLoop] at h
  | .outbound (some m) false :: rest, s, h => by simp [streamLoop] at h
  | .outbound (some m) true :: rest, s, h => by
    simp only [streamLoop, if_true] at h
    obtain ⟨pre, suf, heq⟩ := streamLoop_ok_has_cancel cb rest s h
    exact ⟨.outbound (some m) true :: pre, suf, by simp [heq]⟩
  | .heartbeat :: rest, s, h => by
    rcases hh : cb.on_heartbeat s with e1 | s2
    · simp only [streamLoop, hh] at h
      obtain ⟨pre, suf, heq⟩ := streamLoop_ok_has_cancel cb rest s h
      exact ⟨.heartbeat :: pre, suf, by simp [heq]⟩
    · simp only [streamLoop, hh] at h
      obtain ⟨pre, suf, heq⟩ := streamLoop_ok_has_cancel cb rest s2 h
      exact ⟨.heartbeat :: pre, suf, by simp [heq]⟩

/-- Lifting `streamLoop_ok_has_cancel` over the `on_connect` hook. -/
lemma stream_ok_has_cancel (cb : CallbackM σ) (s : σ) (evs : List StreamEvent)
    (h : (stream cb s evs).result = some (.ok ())) :
    ∃ pre suf, evs = pre ++ StreamEvent.cancelled true :: suf := by
  rcases hc : cb.on_connect s with e1 | s1
  · simp [stream, hc] at h
  · simp only [stream, hc] at h
    exact streamLoop_ok_has_cancel cb evs s1 h

/-- `run` returns `Ok(())` only because some successful connection's
`stream` returned `Ok(())`. -/
lemma run_ok_from_stream (cb : CallbackM σ) :
    ∀ (atts : List ConnectAttempt) (b : ExponentialBackoff) (s : σ),
      (run cb b s atts).1 = some (.ok ()) →
      ∃ evs s0, ConnectAttempt.success evs ∈ atts
        ∧ (stream cb s0 evs).result = some (.ok ())
  | [], b, s, h => by simp [run] at h
  | a :: rest, b, s, h => by
    rcases hb : b.next with _ | ⟨d, b1⟩
    · simp [run, hb] at h
    · match a with
      | .failure =>
        simp only [run, hb] at h
        obtain ⟨evs, s0, hmem, hok⟩ := run_ok_from_stream cb rest b1 s h
        exact ⟨evs, s0, List.mem_cons_of_mem _ hmem, hok⟩
      | .success evs =>
        simp only [run, hb] at h
        rcases ho : (stream cb s evs).result with _ | r
        · simp [ho] at h
        · rcases hd : cb.on_disconnect (stream cb s evs).state with e1 | s2
          · simp [ho, hd] at h
          · rcases r with e1 | u
            · simp only [ho, hd] at h
              obtain ⟨evs2, s0, hmem, hok⟩ :=
                run_ok_from_stream cb rest (ExponentialBackoff.reset b1) s2 h
              exact ⟨evs2, s0, List.mem_cons_of_mem _ hmem, hok⟩
            · cases u
              exact ⟨evs, s, List.mem_cons_self _ _, ho⟩

/-- **C5.**  First conjunct: when the cancellation token fires while the
consumer is streaming — after any benign prefix of select firings — and the
transport accepts the close frame, `stream` returns `Ok(())` with exactly
one close frame sent on the transport.  Second conjunct: whenever `run`
returns `Ok(())` at all, it is because a successful connection's `stream`
returned `Ok(())`, and that script necessarily contains the accepted
cancellation firing — no reconnect retry follows it, and there is no other
path on which `run` returns success. -/
theorem C5_cancellation_is_sole_clean_exit (cb : CallbackM σ) :
    (∀ (s s1 s2 : σ) (pre suf : List StreamEvent),
        cb.on_connect s = .ok s1 →
        benignRun cb s1 pre = some s2 →
        (stream cb s (pre ++ StreamEvent.cancelled true :: suf)).result = some (.ok ())
        ∧ (stream cb s (pre ++ StreamEvent.cancelled true :: suf)).close_frames_sent = 1)
    ∧ (∀ (atts : List ConnectAttempt) (b : ExponentialBackoff) (s : σ),
        (run cb b s atts).1 = some (.ok ()) →
        ∃ evs s0 pre suf, ConnectAttempt.success evs ∈ atts
          ∧ (stream cb s0 evs).result = some (.ok ())
          ∧ evs = pre ++ StreamEvent.cancelled true :: suf) := by
  constructor
  · intro s s1 s2 pre suf hc hben
    have hloop := streamLoop_cancel_after_benign cb pre s1 s2 suf hben
    constructor
    · simp only [stream, hc]
      exact hloop.1
    · simp only [stream, hc]
      exact hloop.2
  · intro atts b s h
    obtain ⟨evs, s0, hmem, hok⟩ := run_ok_from_stream cb atts b s h
    obtain ⟨pre, suf, heq⟩ := stream_ok_has_cancel cb s0 evs hok
    exact ⟨evs, s0, pre, suf, hmem, hok, heq⟩

/-- Witness for C5 with the Coinbase callback: a heartbeat then an accepted
cancellation gives a clean `Ok` exit with one close frame, and a `run`
script that fails its first connect and is then cancelled mid-stream returns
`Ok` through that very cancellation. -/
theorem C5_cancellation_is_sole_clean_exit_witness :
    ((stream (coinbaseCallback (fun s => some ⟨s⟩))
        ({ ws_url := "w", sender := { capacity := 8, buffer := [] },
           subscriber_count := 1 }, [])
        [StreamEvent.heartbeat, StreamEvent.cancelled true]).result = some (.ok ())
      ∧ (stream (coinbaseCallback (fun s => some ⟨s⟩))
          ({ ws_url := "w", sender := { capacity := 8, buffer := [] },
             subscriber_count := 1 }, [])
          [StreamEvent.heartbeat, StreamEvent.cancelled true]).close_frames_sent = 1)
    ∧ (∃ evs s0 pre suf,
        ConnectAttempt.success evs
            ∈ [ConnectAttempt.failure,
               ConnectAttempt.success [StreamEvent.heartbeat, StreamEvent.cancelled true]]
          ∧ (stream (coinbaseCallback (fun s => some ⟨s⟩)) s0 evs).result = some (.ok ())
          ∧ evs = pre ++ StreamEvent.cancelled true :: suf) := by
  constructor
  · exact (C5_cancellation_is_sole_clean_exit (coinbaseCallback (fun s => some ⟨s⟩))).1
      ({ ws_url := "w", sender := { capacity := 8, buffer := [] },
         subscriber_count := 1 }, [])
      ({ ws_url := "w", sender := { capacity := 8, buffer := [] },
         subscriber_count := 1 }, [])
      ({ ws_url := "w", sender := { capacity := 8, buffer := [] },
         subscriber_count := 1 }, [])
      [StreamEvent.heartbeat] [] rfl rfl
  · exact (C5_cancellation_is_sole_clean_exit (coinbaseCallback (fun s => some ⟨s⟩))).2
      [ConnectAttempt.failure,
       ConnectAttempt.success [StreamEvent.heartbeat, StreamEvent.cancelled true]]
      ExponentialBackoff.default
      ({ ws_url := "w", sender := { capacity := 8, buffer := [] },
         subscriber_count := 1 }, [])
      rfl

end Sikarra
